import Mathlib

/-!
# fail2ban-prometheus-exporter: the collector and the MaxMind geo provider

A shallow embedding of `collector/f2b/collector.go`, `collector/f2b/socket.go`
and `geo/maxmind.go`.

* The fail2ban control socket (package `socket`) is an external collaborator.
  It is a parameter of every definition: a record of operations over an
  arbitrary socket-side state `σ`, each answering with a result or an error.
* The Prometheus channel `ch` is the list of metrics sent so far, oldest first.
* `float64(n)` of an integer `n` is represented by `n` itself.
* The two error counters are Go `int` fields: integers kept in two's
  complement, so `++` at the largest value wraps to the smallest. The width of
  `int` depends on the build (32 or 64 bits); it is the parameter `bits` of
  `Collector` and `State`.
* `log.Printf` calls have no effect on any modelled state and are left out.
-/

namespace F2B

/-! ## Data model -/

/-- Go `error` value of a failed call. -/
structure Err where
  msg : String
deriving DecidableEq, Repr

/-- The metric descriptors declared in `socket.go`. -/
inductive Desc where
  | metricErrorCount
  | metricServerUp
  | metricJailCount
  | metricJailFailedCurrent
  | metricJailFailedTotal
  | metricJailBannedCurrent
  | metricJailBannedTotal
  | metricJailBanTime
  | metricJailFindTime
  | metricJailMaxRetry
  | metricVersionInfo
  | metricBannedIP
deriving DecidableEq, Repr

/-- Result of `prometheus.MustNewConstMetric desc _ value labels...`. -/
structure Metric where
  desc : Desc
  value : Int
  labels : List String
deriving DecidableEq, Repr

/-- Four counters answered by `GetJailStats`. -/
structure JailStats where
  FailedCurrent : Int
  FailedTotal : Int
  BannedCurrent : Int
  BannedTotal : Int
deriving DecidableEq, Repr

/-- Go `map[string]string` value (non-nil): an association list read with
`List.lookup`. -/
abbrev Labels := List (String × String)

/-- Interface `geo.Provider`. `Annotate` answers `none` for a nil map. -/
structure Provider where
  Annotate : String → Option Labels
  GetLabels : List String

/-- Reduction of an integer to the Go `int` of `bits` bits it is stored as
(two's complement). -/
def wrapInt (bits : Nat) (n : Int) : Int :=
  (n + ((2 ^ (bits - 1) : Nat) : Int)) % ((2 ^ bits : Nat) : Int) - ((2 ^ (bits - 1) : Nat) : Int)

/-- Largest Go `int` of `bits` bits. -/
def maxInt (bits : Nat) : Int :=
  ((2 ^ (bits - 1) : Nat) : Int) - 1

/-- Smallest Go `int` of `bits` bits. -/
def minInt (bits : Nat) : Int :=
  -((2 ^ (bits - 1) : Nat) : Int)

/-- Statement `x++` on a Go `int` of `bits` bits. -/
def goInc (bits : Nat) (x : Int) : Int :=
  wrapInt bits (x + 1)

/-- Struct `Collector` of `collector.go`, on a build whose `int` has `bits`
bits. -/
structure Collector (bits : Nat) where
  socketPath : String
  exporterVersion : String
  hostname : String
  lastError : Option Err
  socketConnectionErrorCount : Int
  socketRequestErrorCount : Int
  exitOnSocketConnError : Bool
  geoProvider : Option Provider
  geoEnabled : Bool

/-- Operations of package `socket` used by the collector (§4.3 of the
specification: each returns a result or a distinct error). The package is an
external collaborator, so its behaviour is a parameter: `σ` is whatever state
the daemon side keeps, and every operation may change it. -/
structure Fail2BanSocket (σ : Type) where
  ConnectToSocket : String → σ → Except Err Unit × σ
  Ping : σ → Except Err Bool × σ
  GetJails : σ → Except Err (List String) × σ
  GetJailStats : String → σ → Except Err JailStats × σ
  GetJailBanTime : String → σ → Except Err Int × σ
  GetJailFindTime : String → σ → Except Err Int × σ
  GetJailMaxRetries : String → σ → Except Err Int × σ
  GetBannedIPs : String → σ → Except Err (List String) × σ
  GetServerVersion : σ → Except Err String × σ
  Close : σ → σ

/-- Kinds of socket call, for the record of calls made. -/
inductive Op where
  | connect
  | ping
  | jails
  | jailStats
  | banTime
  | findTime
  | maxRetries
  | bannedIPs
  | version
deriving DecidableEq, Repr

/-- One socket call and whether it returned an error. -/
structure Call where
  op : Op
  failed : Bool
deriving DecidableEq, Repr

/-- A session handle `*socket.Fail2BanSocket` (non-nil). -/
inductive Session where
  | handle
deriving DecidableEq, Repr

/-- Everything a scrape can read or change: the collector, the socket side,
the channel, the number of sessions opened and not yet closed, and the record
of socket calls made so far. -/
structure State (σ : Type) (bits : Nat) where
  c : Collector bits
  sock : σ
  ch : List Metric
  openSessions : Nat
  calls : List Call

/-- How a call of `Collect` ends: by returning, or in `os.Exit code`. -/
inductive Outcome (σ : Type) (bits : Nat) where
  | returned (st : State σ bits)
  | exited (code : Nat) (st : State σ bits)

variable {σ : Type} {bits : Nat}

/-! ## Primitive steps -/

/-- Send one metric: `ch <- m`. -/
def send (m : Metric) (st : State σ bits) : State σ bits :=
  { st with ch := st.ch ++ [m] }

/-- Statement `c.socketConnectionErrorCount++`. -/
def incConn (st : State σ bits) : State σ bits :=
  { st with c := { st.c with socketConnectionErrorCount := goInc bits st.c.socketConnectionErrorCount } }

/-- Statement `c.socketRequestErrorCount++`. -/
def incReq (st : State σ bits) : State σ bits :=
  { st with c := { st.c with socketRequestErrorCount := goInc bits st.c.socketRequestErrorCount } }

/-- Run one query of an open session against the socket side and record it. -/
def query {α : Type} (op : Op) (f : σ → Except Err α × σ) (st : State σ bits) :
    Except Err α × State σ bits :=
  match f st.sock with
  | (.ok a, w) => (.ok a, { st with sock := w, calls := st.calls ++ [⟨op, false⟩] })
  | (.error e, w) => (.error e, { st with sock := w, calls := st.calls ++ [⟨op, true⟩] })

/-- Call `socket.ConnectToSocket(path)`: on success one more session is open. -/
def connectToSocket (W : Fail2BanSocket σ) (path : String) (st : State σ bits) :
    Except Err Session × State σ bits :=
  match W.ConnectToSocket path st.sock with
  | (.ok _, w) =>
    (.ok .handle, { st with sock := w, openSessions := st.openSessions + 1,
                            calls := st.calls ++ [⟨.connect, false⟩] })
  | (.error e, w) =>
    (.error e, { st with sock := w, calls := st.calls ++ [⟨.connect, true⟩] })

/-- Call `s.Close()`: one session fewer is open. -/
def closeSession (W : Fail2BanSocket σ) (_s : Session) (st : State σ bits) : State σ bits :=
  { st with sock := W.Close st.sock, openSessions := st.openSessions - 1 }

/-! ## socket.go -/

/-- Function `collectErrorCountMetric`. -/
def collectErrorCountMetric (st : State σ bits) : State σ bits :=
  let st1 := send ⟨.metricErrorCount, st.c.socketConnectionErrorCount,
    ["socket_conn", st.c.hostname]⟩ st
  send ⟨.metricErrorCount, st1.c.socketRequestErrorCount, ["socket_req", st1.c.hostname]⟩ st1

/-- Function `collectServerUpMetric`; `s` is `none` for a nil session. -/
def collectServerUpMetric (W : Fail2BanSocket σ) (s : Option Session) (st : State σ bits) :
    State σ bits :=
  match s with
  | none => send ⟨.metricServerUp, 0, [st.c.hostname]⟩ st
  | some _ =>
    match query .ping W.Ping st with
    | (.error _, st1) =>
      let st2 := incReq st1
      send ⟨.metricServerUp, 0, [st2.c.hostname]⟩ st2
    | (.ok pingSuccess, st1) =>
      send ⟨.metricServerUp, if pingSuccess then 1 else 0, [st1.c.hostname]⟩ st1

/-- Function `collectJailStatsMetric`. -/
def collectJailStatsMetric (W : Fail2BanSocket σ) (_s : Session) (jail : String)
    (st : State σ bits) : State σ bits :=
  match query .jailStats (W.GetJailStats jail) st with
  | (.error _, st1) => incReq st1
  | (.ok stats, st1) =>
    let st2 := send ⟨.metricJailFailedCurrent, stats.FailedCurrent, [jail, st1.c.hostname]⟩ st1
    let st3 := send ⟨.metricJailFailedTotal, stats.FailedTotal, [jail, st2.c.hostname]⟩ st2
    let st4 := send ⟨.metricJailBannedCurrent, stats.BannedCurrent, [jail, st3.c.hostname]⟩ st3
    send ⟨.metricJailBannedTotal, stats.BannedTotal, [jail, st4.c.hostname]⟩ st4

/-- Function `collectJailConfigMetrics`. -/
def collectJailConfigMetrics (W : Fail2BanSocket σ) (_s : Session) (jail : String)
    (st : State σ bits) : State σ bits :=
  let st1 :=
    match query .banTime (W.GetJailBanTime jail) st with
    | (.error _, st1) => incReq st1
    | (.ok banTime, st1) => send ⟨.metricJailBanTime, banTime, [jail, st1.c.hostname]⟩ st1
  let st2 :=
    match query .findTime (W.GetJailFindTime jail) st1 with
    | (.error _, st2) => incReq st2
    | (.ok findTime, st2) => send ⟨.metricJailFindTime, findTime, [jail, st2.c.hostname]⟩ st2
  match query .maxRetries (W.GetJailMaxRetries jail) st2 with
  | (.error _, st3) => incReq st3
  | (.ok maxRetry, st3) => send ⟨.metricJailMaxRetry, maxRetry, [jail, st3.c.hostname]⟩ st3

/-- The loop `for i := range jails` of `collectJailMetrics`. -/
def collectJailLoop (W : Fail2BanSocket σ) (s : Session) : List String → State σ bits → State σ bits
  | [], st => st
  | jail :: rest, st =>
    collectJailLoop W s rest (collectJailConfigMetrics W s jail (collectJailStatsMetric W s jail st))

/-- Function `collectJailMetrics`. When `GetJails` fails, `jails` is nil and the
loop has nothing to visit. -/
def collectJailMetrics (W : Fail2BanSocket σ) (s : Session) (st : State σ bits) : State σ bits :=
  match query .jails W.GetJails st with
  | (.error _, st1) =>
    let st2 := incReq st1
    send ⟨.metricJailCount, 0, [st2.c.hostname]⟩ st2
  | (.ok jails, st1) =>
    let st2 := send ⟨.metricJailCount, (jails.length : Int), [st1.c.hostname]⟩ st1
    collectJailLoop W s jails st2

/-- Function `collectVersionMetric`. When `GetServerVersion` fails the version
string is the zero value `""`. -/
def collectVersionMetric (W : Fail2BanSocket σ) (_s : Session) (st : State σ bits) : State σ bits :=
  match query .version W.GetServerVersion st with
  | (.error _, st1) =>
    let st2 := incReq st1
    send ⟨.metricVersionInfo, 1, [st2.c.exporterVersion, "", st2.c.hostname]⟩ st2
  | (.ok fail2banVersion, st1) =>
    send ⟨.metricVersionInfo, 1, [st1.c.exporterVersion, fail2banVersion, st1.c.hostname]⟩ st1

/-! ## collector.go -/

/-- The read `if val, ok := geoLabels[key]; ok { x = val }` on a variable that
holds `""`. -/
def geoLabel (geoLabels : Labels) (key : String) : String :=
  match geoLabels.lookup key with
  | some val => val
  | none => ""

/-- Function `createBannedIPMetric`. -/
def createBannedIPMetric (jail ip : String) (st : State σ bits) : State σ bits :=
  let labels := [jail, ip, st.c.hostname]
  let geo : List String :=
    match st.c.geoEnabled, st.c.geoProvider with
    | true, some p =>
      match p.Annotate ip with
      | some geoLabels =>
        [geoLabel geoLabels "city", geoLabel geoLabels "latitude",
         geoLabel geoLabels "longitude", geoLabel geoLabels "country",
         geoLabel geoLabels "country_code"]
      | none => ["", "", "", "", ""]
    | _, _ => ["", "", "", "", ""]
  send ⟨.metricBannedIP, 1, labels ++ geo⟩ st

/-- The inner loop `for _, ip := range bannedIPs`; `seenIPs` lists the keys
set to true so far. -/
def bannedIPLoop (jail : String) : List String → List String × State σ bits → List String × State σ bits
  | [], acc => acc
  | ip :: rest, (seenIPs, st) =>
    let key := jail ++ ":" ++ ip
    if seenIPs.contains key then bannedIPLoop jail rest (seenIPs, st)
    else bannedIPLoop jail rest (key :: seenIPs, createBannedIPMetric jail ip st)

/-- The outer loop `for _, jail := range jails` of `collectBannedIPMetrics`. -/
def bannedJailLoop (W : Fail2BanSocket σ) (_s : Session) :
    List String → List String × State σ bits → List String × State σ bits
  | [], acc => acc
  | jail :: rest, (seenIPs, st) =>
    match query .bannedIPs (W.GetBannedIPs jail) st with
    | (.error _, st1) => bannedJailLoop W _s rest (seenIPs, st1)
    | (.ok bannedIPs, st1) => bannedJailLoop W _s rest (bannedIPLoop jail bannedIPs (seenIPs, st1))

/-- Function `collectBannedIPMetrics`. The deferred `s.Close()` runs on both
returns that follow the successful connect. -/
def collectBannedIPMetrics (W : Fail2BanSocket σ) (st : State σ bits) : State σ bits :=
  match connectToSocket W st.c.socketPath st with
  | (.error _, st1) => st1
  | (.ok s, st1) =>
    match query .jails W.GetJails st1 with
    | (.error _, st2) => closeSession W s st2
    | (.ok jails, st2) => closeSession W s (bannedJailLoop W s jails ([], st2)).2

/-- Function `Collect`. The deferred `s.Close()` is registered only when the
connect succeeded and runs when the function returns. -/
def Collect (W : Fail2BanSocket σ) (st : State σ bits) : Outcome σ bits :=
  match connectToSocket W st.c.socketPath st with
  | (.error _, st1) =>
    let st2 := incConn st1
    if st2.c.exitOnSocketConnError then .exited 1 st2
    else
      let st3 := collectServerUpMetric W none st2
      let st4 := collectBannedIPMetrics W st3
      .returned (collectErrorCountMetric st4)
  | (.ok s, st1) =>
    let st2 := collectServerUpMetric W (some s) st1
    let st3 := collectJailMetrics W s st2
    let st4 := collectVersionMetric W s st3
    let st5 := collectBannedIPMetrics W st4
    let st6 := collectErrorCountMetric st5
    .returned (closeSession W s st6)

/-- Function `IsHealthy`. -/
def IsHealthy (W : Fail2BanSocket σ) (st : State σ bits) : Bool × State σ bits :=
  match connectToSocket W st.c.socketPath st with
  | (.error _, st1) => (false, incConn st1)
  | (.ok _, st1) =>
    match query .ping W.Ping st1 with
    | (.error _, st2) => (false, incReq st2)
    | (.ok pingSuccess, st2) => (pingSuccess, st2)

/-! ## geo/maxmind.go -/

/-- Assignment `labels[key] = val` on a Go map. -/
def mapSet (labels : Labels) (key val : String) : Labels :=
  labels.filter (fun kv => kv.1 != key) ++ [(key, val)]

/-- The fields of a `geoip2.City` record that `Annotate` reads. `κ` stands for
`float64`; a nil `Names` map is `none`. -/
structure CityRecord (κ : Type) where
  CityNames : Option Labels
  Latitude : κ
  Longitude : κ
  CountryNames : Option Labels
  CountryIsoCode : String

/-- Struct `MaxMindProvider`: `db` is `none` for a nil reader, otherwise the
reader's `City` lookup on parsed addresses of type `ι`. -/
structure MaxMindProvider (ι κ : Type) where
  db : Option (ι → Except Err (CityRecord κ))

/-- The block `if names != nil && len(names) > 0 { if v, ok := names["en"]; ok && v != "" {
labels[key] = v } }`. -/
def setEnglishName (labels : Labels) (key : String) (names : Option Labels) : Labels :=
  match names with
  | none => labels
  | some m =>
    if m.length > 0 then
      match m.lookup "en" with
      | some v => if v != "" then mapSet labels key v else labels
      | none => labels
    else labels

/-- Method `MaxMindProvider.Annotate`. The library calls are parameters:
`parseIP` is `net.ParseIP`, `isZero x` is the float comparison `x == 0`, and
`sprintf6` is `fmt.Sprintf("%.6f", x)`. -/
def MaxMindProvider.Annotate {ι κ : Type} (parseIP : String → Option ι) (isZero : κ → Bool)
    (sprintf6 : κ → String) (p : MaxMindProvider ι κ) (ip : String) : Option Labels :=
  match p.db with
  | none => none
  | some city =>
    match parseIP ip with
    | none => none
    | some parsedIP =>
      match city parsedIP with
      | .error _ => none
      | .ok record =>
        let labels : Labels := []
        let labels := setEnglishName labels "city" record.CityNames
        let labels :=
          if !(isZero record.Latitude) || !(isZero record.Longitude) then
            mapSet (mapSet labels "latitude" (sprintf6 record.Latitude))
              "longitude" (sprintf6 record.Longitude)
          else labels
        let labels := setEnglishName labels "country" record.CountryNames
        let labels :=
          if record.CountryIsoCode != "" then mapSet labels "country_code" record.CountryIsoCode
          else labels
        if labels.length == 0 then none else some labels

/-- Method `MaxMindProvider.GetLabels`. -/
def MaxMindProvider.GetLabels {ι κ : Type} (_p : MaxMindProvider ι κ) : List String :=
  ["city", "latitude", "longitude", "country", "country_code"]

/-! ## Concrete sockets and states used to run the code -/

/-- A freshly constructed collector (`NewExporter`) on host `"h"`, 64-bit build. -/
def newCollector (exitOnSocketConnError : Bool) : Collector 64 :=
  { socketPath := "/var/run/fail2ban/fail2ban.sock", exporterVersion := "v1", hostname := "h",
    lastError := none, socketConnectionErrorCount := 0, socketRequestErrorCount := 0,
    exitOnSocketConnError := exitOnSocketConnError, geoProvider := none, geoEnabled := false }

/-- The state before a first scrape: empty channel, no session open, no call made. -/
def initState (c : Collector 64) : State Unit 64 :=
  { c := c, sock := (), ch := [], openSessions := 0, calls := [] }

/-- A socket on which every operation fails (the daemon is not reachable). -/
def deadSocket : Fail2BanSocket Unit where
  ConnectToSocket := fun _ w => (.error ⟨"dial"⟩, w)
  Ping := fun w => (.error ⟨"closed"⟩, w)
  GetJails := fun w => (.error ⟨"closed"⟩, w)
  GetJailStats := fun _ w => (.error ⟨"closed"⟩, w)
  GetJailBanTime := fun _ w => (.error ⟨"closed"⟩, w)
  GetJailFindTime := fun _ w => (.error ⟨"closed"⟩, w)
  GetJailMaxRetries := fun _ w => (.error ⟨"closed"⟩, w)
  GetBannedIPs := fun _ w => (.error ⟨"closed"⟩, w)
  GetServerVersion := fun w => (.error ⟨"closed"⟩, w)
  Close := fun w => w

/-- A healthy stateless socket that lists `jails` and answers the banned
addresses of each jail from `banned`; every other query succeeds. -/
def liveSocket (jails : List String) (banned : String → List String) : Fail2BanSocket Unit where
  ConnectToSocket := fun _ w => (.ok (), w)
  Ping := fun w => (.ok true, w)
  GetJails := fun w => (.ok jails, w)
  GetJailStats := fun _ w => (.ok ⟨1, 2, 3, 4⟩, w)
  GetJailBanTime := fun _ w => (.ok 600, w)
  GetJailFindTime := fun _ w => (.ok 600, w)
  GetJailMaxRetries := fun _ w => (.ok 5, w)
  GetBannedIPs := fun jail w => (.ok (banned jail), w)
  GetServerVersion := fun w => (.ok "1.0.2", w)
  Close := fun w => w

/-- The banned-address source of the specification's example. -/
def exampleBanned (jail : String) : List String :=
  if jail = "sshd" then ["1.2.3.4", "1.2.3.4"] else if jail = "nginx" then ["5.6.7.8"] else []

/-- A banned-address source with two jails whose keys `jail + ":" + ip` coincide
(`a:1::2` and `1::2` are both IPv6 addresses). -/
def collidingBanned (jail : String) : List String :=
  if jail = "web" then ["a:1::2"] else if jail = "web:a" then ["1::2", "1::2"] else []

/-- The `banned_ip` samples of a channel, as (jail, ip) label pairs. -/
def bannedPairs (ch : List Metric) : List (String × String) :=
  (ch.filter (fun m => m.desc = .metricBannedIP)).map
    (fun m => (m.labels.getD 0 "", m.labels.getD 1 ""))

/-! ## Specification-side definitions -/

/-- What the specification puts at a geo label position of a `banned_ip`
sample: the enricher's value for `key` when geo-tagging is enabled, a provider
is configured and `key` is present in its result for `ip`, else `""`. -/
def expectedGeoLabel (c : Collector bits) (ip key : String) : String :=
  if c.geoEnabled = true then
    match c.geoProvider with
    | some p =>
      match p.Annotate ip with
      | some result =>
        match result.lookup key with
        | some val => val
        | none => ""
      | none => ""
    | none => ""
  else ""

/-- A provider that resolves city and coordinates only (the specification's
example for 1.2.3.4). -/
def parisProvider : Provider where
  Annotate := fun _ => some [("city", "Paris"), ("latitude", "48.85"), ("longitude", "2.35")]
  GetLabels := ["city", "latitude", "longitude", "country", "country_code"]

/-- A collector on host `"h"` with geo-tagging enabled and `parisProvider`. -/
def parisCollector : Collector 64 :=
  { newCollector false with geoProvider := some parisProvider, geoEnabled := true }

/-- A socket on which sessions and the jail list work but every
banned-address query fails. -/
def bannedFailSocket : Fail2BanSocket Unit :=
  { liveSocket ["sshd", "nginx"] exampleBanned with
    GetBannedIPs := fun _ w => (.error ⟨"timeout"⟩, w) }

/-- Number of failed session acquisitions in a record of calls. -/
def failedConnects (calls : List Call) : Nat :=
  (calls.filter (fun c => decide (c.op = .connect) && c.failed)).length

/-- Number of failed queries (every call other than a connect) in a record of
calls. -/
def failedRequests (calls : List Call) : Nat :=
  (calls.filter (fun c => decide (c.op ≠ .connect) && c.failed)).length

/-- A database record that resolves the country only: no city name, both
coordinates zero. -/
def countryOnlyRecord : CityRecord Int :=
  { CityNames := none, Latitude := 0, Longitude := 0,
    CountryNames := some [("en", "France")], CountryIsoCode := "FR" }

/-- A provider whose database answers `countryOnlyRecord` for every address. -/
def countryOnlyProvider : MaxMindProvider String Int :=
  { db := some (fun _ => .ok countryOnlyRecord) }

/-- Stand-in for `net.ParseIP`: any non-empty string parses. -/
def demoParseIP (ip : String) : Option String :=
  if ip = "" then none else some ip

/-- Stand-in for `fmt.Sprintf("%.6f", x)` on whole numbers. -/
def demoSprintf6 (x : Int) : String :=
  toString x ++ ".000000"

/-- The dedup key of `collectBannedIPMetrics` for a (jail, address) pair. -/
def banKey (p : String × String) : String :=
  p.1 ++ ":" ++ p.2

/-- The raw banned-address data of a cycle: the (jail, address) pairs answered
by `GetBannedIPs` for the jails of the list, in order, from socket state `w`;
a jail whose query fails contributes nothing. -/
def rawBanned (W : Fail2BanSocket σ) : List String → σ → List (String × String)
  | [], _ => []
  | jail :: rest, w =>
    match W.GetBannedIPs jail w with
    | (.error _, w1) => rawBanned W rest w1
    | (.ok ips, w1) => ips.map (fun ip => (jail, ip)) ++ rawBanned W rest w1

/-- The pairs of a list whose key is neither in `seen` nor the key of an
earlier pair of the list. -/
def firstPerKey : List (String × String) → List String → List (String × String)
  | [], _ => []
  | p :: rest, seen =>
    if seen.contains (banKey p) then firstPerKey rest seen
    else p :: firstPerKey rest (banKey p :: seen)

/-- The keys seen after a list of pairs has been processed. -/
def seenAfter : List (String × String) → List String → List String
  | [], seen => seen
  | p :: rest, seen =>
    if seen.contains (banKey p) then seenAfter rest seen
    else seenAfter rest (banKey p :: seen)

/-! ## Vocabulary of the proofs -/

/-- Relation between the state before and after a step that only sends metrics
satisfying `P`, keeps the host name and leaves the number of open sessions as
it was. -/
def Grows (P : Metric → Prop) (st st1 : State σ bits) : Prop :=
  (∃ e, st1.ch = st.ch ++ e ∧ ∀ m ∈ e, P m) ∧
  st1.c.hostname = st.c.hostname ∧
  st1.openSessions = st.openSessions

/-- The socket calls made between state `st` and the later state `st1`. -/
def newCalls (st st1 : State σ bits) : List Call :=
  st1.calls.drop st.calls.length

/-- Relation between the state before and after a step whose increments of
the two counters are covered by failed calls of the matching kind: as long as a
counter starts as a Go `int` and cannot pass the largest one with that many
increments, it ends between its old value and the old value plus the number of
those failed calls. -/
def Counted (st st1 : State σ bits) : Prop :=
  ∃ new, st1.calls = st.calls ++ new ∧
    (minInt bits ≤ st.c.socketConnectionErrorCount →
      st.c.socketConnectionErrorCount + (failedConnects new : Int) ≤ maxInt bits →
      st.c.socketConnectionErrorCount ≤ st1.c.socketConnectionErrorCount ∧
      st1.c.socketConnectionErrorCount ≤
        st.c.socketConnectionErrorCount + (failedConnects new : Int)) ∧
    (minInt bits ≤ st.c.socketRequestErrorCount →
      st.c.socketRequestErrorCount + (failedRequests new : Int) ≤ maxInt bits →
      st.c.socketRequestErrorCount ≤ st1.c.socketRequestErrorCount ∧
      st1.c.socketRequestErrorCount ≤
        st.c.socketRequestErrorCount + (failedRequests new : Int))

/-- A collector of a 64-bit build whose two counters hold the largest `int`. -/
def saturatedCollector : Collector 64 :=
  { newCollector false with
    socketConnectionErrorCount := 9223372036854775807
    socketRequestErrorCount := 9223372036854775807 }

/-- The descriptors sent per jail by `collectJailMetrics`. -/
def perJailDesc (d : Desc) : Prop :=
  d = .metricJailFailedCurrent ∨ d = .metricJailFailedTotal ∨ d = .metricJailBannedCurrent ∨
  d = .metricJailBannedTotal ∨ d = .metricJailBanTime ∨ d = .metricJailFindTime ∨
  d = .metricJailMaxRetry

/-- Descriptors other than `up`: everything `Collect` sends after its first
metric. -/
def notServerUp (m : Metric) : Prop := m.desc ≠ .metricServerUp

/-- Value of `serverUp` after the ping of `collectServerUpMetric` on socket
state `w`. -/
def pingValue (W : Fail2BanSocket σ) (w : σ) : Int :=
  match W.Ping w with
  | (.ok true, _) => 1
  | _ => 0

/-! ## Frame facts shared by the proofs -/

theorem Grows.refl (P : Metric → Prop) (st : State σ bits) : Grows P st st :=
  ⟨⟨[], by simp, by simp⟩, rfl, rfl⟩

theorem Grows.trans {P : Metric → Prop} {a b d : State σ bits} (h1 : Grows P a b)
    (h2 : Grows P b d) : Grows P a d := by
  obtain ⟨⟨e1, he1, hp1⟩, hh1, ho1⟩ := h1
  obtain ⟨⟨e2, he2, hp2⟩, hh2, ho2⟩ := h2
  refine ⟨⟨e1 ++ e2, by rw [he2, he1, List.append_assoc], ?_⟩, hh2.trans hh1, ho2.trans ho1⟩
  intro m hm
  rcases List.mem_append.mp hm with h | h
  · exact hp1 m h
  · exact hp2 m h

theorem Grows.mono {P Q : Metric → Prop} {a b : State σ bits} (hPQ : ∀ m, P m → Q m)
    (h : Grows P a b) : Grows Q a b := by
  obtain ⟨⟨e, he, hp⟩, hrest⟩ := h
  exact ⟨⟨e, he, fun m hm => hPQ m (hp m hm)⟩, hrest⟩

theorem grows_send {P : Metric → Prop} (m : Metric) (st : State σ bits) (hm : P m) :
    Grows P st (send m st) :=
  ⟨⟨[m], rfl, by simpa using hm⟩, rfl, rfl⟩

theorem grows_incReq (P : Metric → Prop) (st : State σ bits) : Grows P st (incReq st) :=
  ⟨⟨[], by simp [incReq], by simp⟩, rfl, rfl⟩

theorem grows_query {α : Type} (P : Metric → Prop) (op : Op) (f : σ → Except Err α × σ)
    (st : State σ bits) : Grows P st (query op f st).2 := by
  unfold query
  split <;> exact ⟨⟨[], by simp, by simp⟩, rfl, rfl⟩

theorem grows_collectJailStatsMetric (P : Metric → Prop) (W : Fail2BanSocket σ) (s : Session)
    (jail : String) (st : State σ bits)
    (h1 : ∀ v l, P ⟨.metricJailFailedCurrent, v, l⟩)
    (h2 : ∀ v l, P ⟨.metricJailFailedTotal, v, l⟩)
    (h3 : ∀ v l, P ⟨.metricJailBannedCurrent, v, l⟩)
    (h4 : ∀ v l, P ⟨.metricJailBannedTotal, v, l⟩) :
    Grows P st (collectJailStatsMetric W s jail st) := by
  have hq := grows_query P .jailStats (W.GetJailStats jail) st
  unfold collectJailStatsMetric
  split
  · next _ st1 heq =>
    rw [heq] at hq
    exact hq.trans (grows_incReq P st1)
  · next stats st1 heq =>
    rw [heq] at hq
    exact hq.trans ((grows_send _ _ (h1 _ _)).trans ((grows_send _ _ (h2 _ _)).trans
      ((grows_send _ _ (h3 _ _)).trans (grows_send _ _ (h4 _ _)))))

theorem grows_configField {P : Metric → Prop} (op : Op) (f : σ → Except Err Int × σ)
    (d : Desc) (jail : String) (st : State σ bits) (h : ∀ v l, P ⟨d, v, l⟩) :
    Grows P st
      (match query op f st with
       | (.error _, st1) => incReq st1
       | (.ok v, st1) => send ⟨d, v, [jail, st1.c.hostname]⟩ st1) := by
  have hq := grows_query P op f st
  split
  · next _ st1 heq =>
    rw [heq] at hq
    exact hq.trans (grows_incReq P st1)
  · next v st1 heq =>
    rw [heq] at hq
    exact hq.trans (grows_send _ _ (h _ _))

theorem grows_collectJailConfigMetrics (P : Metric → Prop) (W : Fail2BanSocket σ) (s : Session)
    (jail : String) (st : State σ bits)
    (h1 : ∀ v l, P ⟨.metricJailBanTime, v, l⟩)
    (h2 : ∀ v l, P ⟨.metricJailFindTime, v, l⟩)
    (h3 : ∀ v l, P ⟨.metricJailMaxRetry, v, l⟩) :
    Grows P st (collectJailConfigMetrics W s jail st) := by
  unfold collectJailConfigMetrics
  exact (grows_configField .banTime _ _ jail st h1).trans
    ((grows_configField .findTime _ _ jail _ h2).trans
      (grows_configField .maxRetries _ _ jail _ h3))

theorem grows_collectJailLoop (W : Fail2BanSocket σ) (s : Session) (jails : List String)
    (st : State σ bits) : Grows (fun m => perJailDesc m.desc) st (collectJailLoop W s jails st) := by
  induction jails generalizing st with
  | nil => exact Grows.refl _ st
  | cons jail rest ih =>
    unfold collectJailLoop
    refine (grows_collectJailStatsMetric _ W s jail st ?_ ?_ ?_ ?_).trans
      ((grows_collectJailConfigMetrics _ W s jail _ ?_ ?_ ?_).trans (ih _)) <;>
    intro v l <;> simp [perJailDesc]

theorem grows_collectJailMetrics (W : Fail2BanSocket σ) (s : Session) (st : State σ bits) :
    Grows (fun m => m.desc = .metricJailCount ∨ perJailDesc m.desc) st
      (collectJailMetrics W s st) := by
  have hq := grows_query (fun m => m.desc = .metricJailCount ∨ perJailDesc m.desc)
    .jails W.GetJails st
  unfold collectJailMetrics
  split
  · next _ st1 heq =>
    rw [heq] at hq
    exact hq.trans ((grows_incReq _ st1).trans (grows_send _ _ (Or.inl rfl)))
  · next jails st1 heq =>
    rw [heq] at hq
    exact hq.trans ((grows_send _ _ (Or.inl rfl)).trans
      ((grows_collectJailLoop W s jails _).mono (fun _ h => Or.inr h)))

theorem grows_collectVersionMetric (W : Fail2BanSocket σ) (s : Session) (st : State σ bits) :
    Grows (fun m => m.desc = .metricVersionInfo) st (collectVersionMetric W s st) := by
  have hq := grows_query (fun m => m.desc = .metricVersionInfo) .version W.GetServerVersion st
  unfold collectVersionMetric
  split
  · next _ st1 heq =>
    rw [heq] at hq
    exact hq.trans ((grows_incReq _ st1).trans (grows_send _ _ rfl))
  · next v st1 heq =>
    rw [heq] at hq
    exact hq.trans (grows_send _ _ rfl)

theorem grows_createBannedIPMetric (jail ip : String) (st : State σ bits) :
    Grows (fun m => m.desc = .metricBannedIP) st (createBannedIPMetric jail ip st) := by
  unfold createBannedIPMetric
  exact grows_send _ _ rfl

theorem grows_bannedIPLoop (jail : String) (ips seenIPs : List String) (st : State σ bits) :
    Grows (fun m => m.desc = .metricBannedIP) st (bannedIPLoop jail ips (seenIPs, st)).2 := by
  induction ips generalizing seenIPs st with
  | nil => exact Grows.refl _ st
  | cons ip rest ih =>
    unfold bannedIPLoop
    simp only
    split
    · exact ih _ _
    · exact (grows_createBannedIPMetric jail ip st).trans (ih _ _)

theorem grows_bannedJailLoop (W : Fail2BanSocket σ) (s : Session) (jails seenIPs : List String)
    (st : State σ bits) :
    Grows (fun m => m.desc = .metricBannedIP) st (bannedJailLoop W s jails (seenIPs, st)).2 := by
  induction jails generalizing seenIPs st with
  | nil => exact Grows.refl _ st
  | cons jail rest ih =>
    have hq := grows_query (fun m => m.desc = .metricBannedIP) .bannedIPs
      (W.GetBannedIPs jail) st
    unfold bannedJailLoop
    split
    · next _ st1 heq =>
      rw [heq] at hq
      exact hq.trans (ih _ _)
    · next ips st1 heq =>
      rw [heq] at hq
      exact hq.trans ((grows_bannedIPLoop jail ips seenIPs st1).trans (ih _ _))

/-- What `connectToSocket` leaves untouched, and what it does to the number of
open sessions. -/
theorem connectToSocket_frame (W : Fail2BanSocket σ) (path : String) (st : State σ bits) :
    (connectToSocket W path st).2.c = st.c ∧ (connectToSocket W path st).2.ch = st.ch ∧
    (connectToSocket W path st).2.openSessions =
      st.openSessions + (match (connectToSocket W path st).1 with
        | .ok _ => 1
        | .error _ => 0) := by
  unfold connectToSocket
  split <;> simp

theorem grows_collectBannedIPMetrics (W : Fail2BanSocket σ) (st : State σ bits) :
    Grows (fun m => m.desc = .metricBannedIP) st (collectBannedIPMetrics W st) := by
  have hc := connectToSocket_frame W st.c.socketPath st
  unfold collectBannedIPMetrics
  split
  · next _ st1 heq =>
    rw [heq] at hc
    obtain ⟨h1, h2, h3⟩ := hc
    simp only at h1 h2 h3
    exact ⟨⟨[], by simp [h2], by simp⟩, by rw [h1], by simpa using h3⟩
  · next s st1 heq =>
    rw [heq] at hc
    obtain ⟨h1, h2, h3⟩ := hc
    simp only at h1 h2 h3
    have key : ∀ st2 : State σ bits, Grows (fun m => m.desc = .metricBannedIP) st1 st2 →
        Grows (fun m => m.desc = .metricBannedIP) st (closeSession W s st2) := by
      intro st2 hg
      obtain ⟨⟨e, he, hp⟩, g3, g4⟩ := hg
      refine ⟨⟨e, ?_, hp⟩, ?_, ?_⟩
      · simp [closeSession, he, h2]
      · simpa [closeSession, h1] using g3
      · simp [closeSession, g4, h3]
    have hq := grows_query (fun m => m.desc = .metricBannedIP) .jails W.GetJails st1
    split
    · next _ st2 heq2 =>
      rw [heq2] at hq
      exact key _ hq
    · next jails st2 heq2 =>
      rw [heq2] at hq
      exact key _ (hq.trans (grows_bannedJailLoop W s jails [] st2))

theorem grows_collectServerUpMetric (W : Fail2BanSocket σ) (s : Option Session) (st : State σ bits) :
    Grows (fun m => m.desc = .metricServerUp) st (collectServerUpMetric W s st) := by
  have hq := grows_query (fun m => m.desc = .metricServerUp) .ping W.Ping st
  unfold collectServerUpMetric
  split
  · exact grows_send _ _ rfl
  · split
    · next _ st1 heq =>
      rw [heq] at hq
      exact hq.trans ((grows_incReq _ st1).trans (grows_send _ _ rfl))
    · next v st1 heq =>
      rw [heq] at hq
      exact hq.trans (grows_send _ _ rfl)

theorem grows_collectErrorCountMetric (st : State σ bits) :
    Grows (fun m => m.desc = .metricErrorCount) st (collectErrorCountMetric st) := by
  unfold collectErrorCountMetric
  exact Grows.trans (P := fun m => m.desc = .metricErrorCount) (grows_send _ _ rfl)
    (grows_send _ _ rfl)

theorem filter_serverUp_nil (e : List Metric) (h : ∀ m ∈ e, notServerUp m) :
    e.filter (fun m => decide (m.desc = .metricServerUp)) = [] := by
  rw [List.filter_eq_nil_iff]
  intro m hm
  simpa using h m hm

/-- The single metric sent by `collectServerUpMetric` on an open session. -/
theorem collectServerUpMetric_some (W : Fail2BanSocket σ) (s : Session) (st : State σ bits) :
    (collectServerUpMetric W (some s) st).ch =
      st.ch ++ [⟨.metricServerUp, pingValue W st.sock, [st.c.hostname]⟩] := by
  unfold collectServerUpMetric query pingValue
  rcases hp : W.Ping st.sock with ⟨r, w⟩
  rcases r with e | b
  · simp [send, incReq]
  · cases b <;> simp [send]

/-- Everything `Collect` does after `collectServerUpMetric` on the path with a
session, up to the deferred close. -/
theorem grows_afterServerUp (W : Fail2BanSocket σ) (s : Session) (st : State σ bits) :
    Grows notServerUp st
      (collectErrorCountMetric (collectBannedIPMetrics W
        (collectVersionMetric W s (collectJailMetrics W s st)))) := by
  refine ((grows_collectJailMetrics W s st).mono ?_).trans
    (((grows_collectVersionMetric W s _).mono ?_).trans
      (((grows_collectBannedIPMetrics W _).mono ?_).trans
        ((grows_collectErrorCountMetric _).mono ?_)))
  · intro m hm
    rcases hm with h | h
    · simp [notServerUp, h]
    · unfold perJailDesc at h
      rcases h with h | h | h | h | h | h | h <;> simp [notServerUp, h]
  · intro m hm
    simp [notServerUp, hm]
  · intro m hm
    simp [notServerUp, hm]
  · intro m hm
    simp [notServerUp, hm]

/-- Everything `Collect` does after `collectServerUpMetric` on the path without
a session. -/
theorem grows_afterServerUp_none (W : Fail2BanSocket σ) (st : State σ bits) :
    Grows notServerUp st (collectErrorCountMetric (collectBannedIPMetrics W st)) := by
  refine ((grows_collectBannedIPMetrics W _).mono ?_).trans
    ((grows_collectErrorCountMetric _).mono ?_)
  · intro m hm
    simp [notServerUp, hm]
  · intro m hm
    simp [notServerUp, hm]

theorem collectErrorCountMetric_eq (st : State σ bits) :
    collectErrorCountMetric st =
      { st with ch := st.ch ++
          [⟨.metricErrorCount, (st.c.socketConnectionErrorCount : Int),
              ["socket_conn", st.c.hostname]⟩,
            ⟨.metricErrorCount, (st.c.socketRequestErrorCount : Int),
              ["socket_req", st.c.hostname]⟩] } := by
  simp [collectErrorCountMetric, send]

/-- Everything between the connect of `Collect` and its error-count metrics, on
the path with a session. -/
theorem grows_beforeErrorCount (W : Fail2BanSocket σ) (s : Session) (st : State σ bits) :
    Grows (fun _ => True) st
      (collectBannedIPMetrics W (collectVersionMetric W s (collectJailMetrics W s
        (collectServerUpMetric W (some s) st)))) :=
  ((grows_collectServerUpMetric W (some s) st).mono (fun _ _ => trivial)).trans
    (((grows_collectJailMetrics W s _).mono (fun _ _ => trivial)).trans
      (((grows_collectVersionMetric W s _).mono (fun _ _ => trivial)).trans
        ((grows_collectBannedIPMetrics W _).mono (fun _ _ => trivial))))

/-- Everything between the failed connect of `Collect` and its error-count
metrics, on the path without a session. -/
theorem grows_beforeErrorCount_none (W : Fail2BanSocket σ) (st : State σ bits) :
    Grows (fun _ => True) st (collectBannedIPMetrics W (collectServerUpMetric W none st)) :=
  ((grows_collectServerUpMetric W none st).mono (fun _ _ => trivial)).trans
    ((grows_collectBannedIPMetrics W _).mono (fun _ _ => trivial))

/-- State reached by a `Collect` that returns: host name kept, the channel
extended by metrics that end with the two error counts, and as many sessions
open as before. -/
theorem Collect_returned_frame (W : Fail2BanSocket σ) (st st1 : State σ bits)
    (h : Collect W st = .returned st1) :
    st1.c.hostname = st.c.hostname ∧
    (∃ pre, st1.ch = st.ch ++ pre ++
      [⟨.metricErrorCount, (st1.c.socketConnectionErrorCount : Int),
          ["socket_conn", st1.c.hostname]⟩,
        ⟨.metricErrorCount, (st1.c.socketRequestErrorCount : Int),
          ["socket_req", st1.c.hostname]⟩]) ∧
    st1.openSessions = st.openSessions := by
  unfold Collect at h
  rcases hconn : W.ConnectToSocket st.c.socketPath st.sock with ⟨r, w⟩
  rcases r with e | u
  · have hcs : connectToSocket W st.c.socketPath st =
        (.error e, { st with sock := w, calls := st.calls ++ [⟨.connect, true⟩] }) := by
      simp [connectToSocket, hconn]
    rw [hcs] at h
    simp only at h
    split at h
    · cases h
    · injection h with h
      subst h
      obtain ⟨⟨pre, hpre, -⟩, g3, g4⟩ := grows_beforeErrorCount_none W
        (incConn { st with sock := w, calls := st.calls ++ [⟨.connect, true⟩] })
      rw [collectErrorCountMetric_eq]
      refine ⟨?_, ⟨pre, ?_⟩, ?_⟩
      · exact g3
      · simp only [hpre]
        simp [incConn]
      · exact g4
  · have hcs : connectToSocket W st.c.socketPath st =
        (.ok .handle, { st with sock := w, openSessions := st.openSessions + 1,
                                calls := st.calls ++ [⟨.connect, false⟩] }) := by
      simp [connectToSocket, hconn]
    rw [hcs] at h
    simp only at h
    injection h with h
    subst h
    obtain ⟨⟨pre, hpre, -⟩, g3, g4⟩ := grows_beforeErrorCount W .handle
      { st with sock := w, openSessions := st.openSessions + 1,
                calls := st.calls ++ [⟨.connect, false⟩] }
    rw [collectErrorCountMetric_eq]
    refine ⟨?_, ⟨pre, ?_⟩, ?_⟩
    · exact g3
    · simp only [closeSession, hpre]
    · simp [closeSession, g4]

/-- The cycle of `Collect` ends in `os.Exit` exactly when the initial connect
fails under the fatal policy; in every other case it returns. -/
theorem Collect_exits_iff (W : Fail2BanSocket σ) (st : State σ bits) :
    (∃ code st1, Collect W st = .exited code st1) ↔
      (st.c.exitOnSocketConnError = true ∧
        ∃ e w, W.ConnectToSocket st.c.socketPath st.sock = (.error e, w)) := by
  unfold Collect connectToSocket
  rcases hconn : W.ConnectToSocket st.c.socketPath st.sock with ⟨r, w⟩
  rcases r with e | u
  · rcases hx : st.c.exitOnSocketConnError with _ | _ <;> simp [incConn, hx]
  · simp

/-! ## Counters and failed calls -/

/-- Below the largest `int`, `x++` is `x + 1`. -/
theorem goInc_eq (hb : 0 < bits) (x : Int) (h1 : minInt bits ≤ x) (h2 : x + 1 ≤ maxInt bits) :
    goInc bits x = x + 1 := by
  unfold goInc wrapInt
  unfold minInt at h1
  unfold maxInt at h2
  have hp : (2 ^ bits : Nat) = 2 * 2 ^ (bits - 1) := by
    obtain ⟨k, rfl⟩ := Nat.exists_eq_succ_of_ne_zero (Nat.pos_iff_ne_zero.mp hb)
    simp [pow_succ, Nat.mul_comm]
  rw [hp]
  push_cast at h1 h2 ⊢
  generalize ((2 : Int) ^ (bits - 1)) = half at h1 h2 ⊢
  rw [Int.emod_eq_of_lt] <;> omega

theorem failedConnects_append (a b : List Call) :
    failedConnects (a ++ b) = failedConnects a + failedConnects b := by
  simp [failedConnects]

theorem failedRequests_append (a b : List Call) :
    failedRequests (a ++ b) = failedRequests a + failedRequests b := by
  simp [failedRequests]

theorem Counted.andThen {a b d : State σ bits} (h1 : Counted a b) (h2 : Counted b d) :
    Counted a d := by
  obtain ⟨n1, hn1, c1, r1⟩ := h1
  obtain ⟨n2, hn2, c2, r2⟩ := h2
  refine ⟨n1 ++ n2, by rw [hn2, hn1, List.append_assoc], ?_, ?_⟩
  · intro hlo hhi
    rw [failedConnects_append] at hhi ⊢
    push_cast at hhi ⊢
    obtain ⟨x1, x2⟩ := c1 hlo (by omega)
    obtain ⟨y1, y2⟩ := c2 (by omega) (by omega)
    constructor <;> omega
  · intro hlo hhi
    rw [failedRequests_append] at hhi ⊢
    push_cast at hhi ⊢
    obtain ⟨x1, x2⟩ := r1 hlo (by omega)
    obtain ⟨y1, y2⟩ := r2 (by omega) (by omega)
    constructor <;> omega

/-- A step that leaves the collector alone is counted, whatever calls it made. -/
theorem counted_same {st st1 : State σ bits} (new : List Call) (hc : st1.c = st.c)
    (hn : st1.calls = st.calls ++ new) : Counted st st1 := by
  refine ⟨new, hn, ?_, ?_⟩ <;>
  · intro _ _
    rw [hc]
    constructor <;> omega

theorem Counted.stay (st : State σ bits) : Counted st st :=
  counted_same [] rfl (by simp)

theorem counted_send (m : Metric) (st : State σ bits) : Counted st (send m st) :=
  counted_same [] rfl (by simp [send])

theorem query_result {α : Type} (op : Op) (f : σ → Except Err α × σ) (st : State σ bits) :
    (query op f st).2.c = st.c ∧
    (query op f st).2.calls = st.calls ++ [⟨op,
      (match (query op f st).1 with
       | .ok _ => false
       | .error _ => true)⟩] := by
  unfold query
  split <;> simp

theorem counted_query_ok {α : Type} (op : Op) (f : σ → Except Err α × σ) (st st1 : State σ bits)
    (v : α) (h : query op f st = (.ok v, st1)) : Counted st st1 := by
  obtain ⟨h1, h2⟩ := query_result op f st
  rw [h] at h1 h2
  exact counted_same _ h1 h2

theorem counted_query_error {α : Type} (hb : 0 < bits) (op : Op) (hop : op ≠ .connect)
    (f : σ → Except Err α × σ) (st st1 : State σ bits) (e : Err)
    (h : query op f st = (.error e, st1)) : Counted st (incReq st1) := by
  obtain ⟨h1, h2⟩ := query_result op f st
  rw [h] at h1 h2
  simp only at h1 h2
  refine ⟨[⟨op, true⟩], by simp [incReq, h2], ?_, ?_⟩
  · intro _ _
    simp [incReq, h1, failedConnects, hop]
  · intro hlo hhi
    have hf : failedRequests [⟨op, true⟩] = 1 := by simp [failedRequests, hop]
    rw [hf] at hhi ⊢
    have hg := goInc_eq hb st.c.socketRequestErrorCount hlo (by simpa using hhi)
    simp only [incReq, h1, hg]
    constructor <;> simp

theorem counted_collectServerUpMetric (hb : 0 < bits) (W : Fail2BanSocket σ)
    (s : Option Session) (st : State σ bits) : Counted st (collectServerUpMetric W s st) := by
  unfold collectServerUpMetric
  split
  · exact counted_send _ _
  · split
    · next e st1 heq =>
      exact (counted_query_error hb .ping (by decide) W.Ping st st1 e heq).andThen
        (counted_send _ _)
    · next v st1 heq =>
      exact (counted_query_ok .ping W.Ping st st1 v heq).andThen (counted_send _ _)

theorem counted_collectJailStatsMetric (hb : 0 < bits) (W : Fail2BanSocket σ) (s : Session)
    (jail : String) (st : State σ bits) : Counted st (collectJailStatsMetric W s jail st) := by
  unfold collectJailStatsMetric
  split
  · next e st1 heq =>
    exact counted_query_error hb .jailStats (by decide) (W.GetJailStats jail) st st1 e heq
  · next stats st1 heq =>
    exact (counted_query_ok .jailStats (W.GetJailStats jail) st st1 stats heq).andThen
      ((counted_send _ _).andThen ((counted_send _ _).andThen
        ((counted_send _ _).andThen (counted_send _ _))))

theorem counted_configField (hb : 0 < bits) (op : Op) (hop : op ≠ .connect)
    (f : σ → Except Err Int × σ) (d : Desc) (jail : String) (st : State σ bits) :
    Counted st
      (match query op f st with
       | (.error _, st1) => incReq st1
       | (.ok v, st1) => send ⟨d, v, [jail, st1.c.hostname]⟩ st1) := by
  split
  · next e st1 heq => exact counted_query_error hb op hop f st st1 e heq
  · next v st1 heq => exact (counted_query_ok op f st st1 v heq).andThen (counted_send _ _)

theorem counted_collectJailConfigMetrics (hb : 0 < bits) (W : Fail2BanSocket σ) (s : Session)
    (jail : String) (st : State σ bits) : Counted st (collectJailConfigMetrics W s jail st) := by
  unfold collectJailConfigMetrics
  exact (counted_configField hb .banTime (by decide) _ _ jail st).andThen
    ((counted_configField hb .findTime (by decide) _ _ jail _).andThen
      (counted_configField hb .maxRetries (by decide) _ _ jail _))

theorem counted_collectJailLoop (hb : 0 < bits) (W : Fail2BanSocket σ) (s : Session)
    (jails : List String) (st : State σ bits) : Counted st (collectJailLoop W s jails st) := by
  induction jails generalizing st with
  | nil => exact Counted.stay st
  | cons jail rest ih =>
    unfold collectJailLoop
    exact (counted_collectJailStatsMetric hb W s jail st).andThen
      ((counted_collectJailConfigMetrics hb W s jail _).andThen (ih _))

theorem counted_collectJailMetrics (hb : 0 < bits) (W : Fail2BanSocket σ) (s : Session)
    (st : State σ bits) : Counted st (collectJailMetrics W s st) := by
  unfold collectJailMetrics
  split
  · next e st1 heq =>
    exact (counted_query_error hb .jails (by decide) W.GetJails st st1 e heq).andThen
      (counted_send _ _)
  · next jails st1 heq =>
    exact (counted_query_ok .jails W.GetJails st st1 jails heq).andThen
      ((counted_send _ _).andThen (counted_collectJailLoop hb W s jails _))

theorem counted_collectVersionMetric (hb : 0 < bits) (W : Fail2BanSocket σ) (s : Session)
    (st : State σ bits) : Counted st (collectVersionMetric W s st) := by
  unfold collectVersionMetric
  split
  · next e st1 heq =>
    exact (counted_query_error hb .version (by decide) W.GetServerVersion st st1 e heq).andThen
      (counted_send _ _)
  · next v st1 heq =>
    exact (counted_query_ok .version W.GetServerVersion st st1 v heq).andThen (counted_send _ _)

theorem counted_bannedIPLoop (jail : String) (ips seen : List String) (st : State σ bits) :
    Counted st (bannedIPLoop jail ips (seen, st)).2 := by
  induction ips generalizing seen st with
  | nil => exact Counted.stay st
  | cons ip rest ih =>
    unfold bannedIPLoop
    simp only
    split
    · exact ih _ _
    · exact (counted_send _ st).andThen (ih _ _)

theorem counted_query_any {α : Type} (op : Op) (f : σ → Except Err α × σ)
    (st : State σ bits) : Counted st (query op f st).2 :=
  counted_same _ (query_result op f st).1 (query_result op f st).2

theorem counted_bannedJailLoop (W : Fail2BanSocket σ) (s : Session) (jails seen : List String)
    (st : State σ bits) : Counted st (bannedJailLoop W s jails (seen, st)).2 := by
  induction jails generalizing seen st with
  | nil => exact Counted.stay st
  | cons jail rest ih =>
    have hq := counted_query_any .bannedIPs (W.GetBannedIPs jail) st
    unfold bannedJailLoop
    split
    · next _ st1 heq =>
      rw [heq] at hq
      exact hq.andThen (ih _ _)
    · next ips st1 heq =>
      rw [heq] at hq
      exact hq.andThen ((counted_bannedIPLoop jail ips seen st1).andThen (ih _ _))

theorem connectToSocket_result (W : Fail2BanSocket σ) (path : String) (st : State σ bits) :
    (connectToSocket W path st).2.c = st.c ∧
    (connectToSocket W path st).2.calls = st.calls ++ [⟨.connect,
      (match (connectToSocket W path st).1 with
       | .ok _ => false
       | .error _ => true)⟩] := by
  unfold connectToSocket
  split <;> simp

theorem counted_closeSession (W : Fail2BanSocket σ) (s : Session) (st : State σ bits) :
    Counted st (closeSession W s st) :=
  counted_same [] rfl (by simp [closeSession])

theorem counted_collectBannedIPMetrics (W : Fail2BanSocket σ) (st : State σ bits) :
    Counted st (collectBannedIPMetrics W st) := by
  have hc : Counted st (connectToSocket W st.c.socketPath st).2 :=
    counted_same _ (connectToSocket_result W _ st).1 (connectToSocket_result W _ st).2
  unfold collectBannedIPMetrics
  split
  · next _ st1 heq =>
    rw [heq] at hc
    exact hc
  · next s st1 heq =>
    rw [heq] at hc
    have hq := counted_query_any .jails W.GetJails st1
    split
    · next _ st2 heq2 =>
      rw [heq2] at hq
      exact hc.andThen (hq.andThen (counted_closeSession W s st2))
    · next jails st2 heq2 =>
      rw [heq2] at hq
      exact hc.andThen (hq.andThen ((counted_bannedJailLoop W s jails [] st2).andThen
        (counted_closeSession W s _)))

theorem counted_collectErrorCountMetric (st : State σ bits) :
    Counted st (collectErrorCountMetric st) := by
  unfold collectErrorCountMetric
  exact (counted_send _ st).andThen (counted_send _ _)

theorem counted_connect_error (hb : 0 < bits) (W : Fail2BanSocket σ) (path : String)
    (st st1 : State σ bits) (e : Err) (h : connectToSocket W path st = (.error e, st1)) :
    Counted st (incConn st1) := by
  obtain ⟨h1, h2⟩ := connectToSocket_result W path st
  rw [h] at h1 h2
  simp only at h1 h2
  refine ⟨[⟨.connect, true⟩], by simp [incConn, h2], ?_, ?_⟩
  · intro hlo hhi
    have hf : failedConnects [⟨.connect, true⟩] = 1 := by simp [failedConnects]
    rw [hf] at hhi ⊢
    have hg := goInc_eq hb st.c.socketConnectionErrorCount hlo (by simpa using hhi)
    simp only [incConn, h1, hg]
    constructor <;> simp
  · intro _ _
    simp [incConn, h1, failedRequests]

theorem counted_connect_ok (W : Fail2BanSocket σ) (path : String) (st st1 : State σ bits)
    (s : Session) (h : connectToSocket W path st = (.ok s, st1)) : Counted st st1 := by
  obtain ⟨h1, h2⟩ := connectToSocket_result W path st
  rw [h] at h1 h2
  exact counted_same _ h1 h2

/-- A `Collect` that returns is counted. -/
theorem counted_Collect (hb : 0 < bits) (W : Fail2BanSocket σ) (st st1 : State σ bits)
    (h : Collect W st = .returned st1) : Counted st st1 := by
  unfold Collect at h
  split at h
  · next e st0 heq =>
    simp only at h
    split at h
    · cases h
    · injection h with h
      subst h
      exact (counted_connect_error hb W _ st st0 e heq).andThen
        ((counted_collectServerUpMetric hb W none _).andThen
          ((counted_collectBannedIPMetrics W _).andThen (counted_collectErrorCountMetric _)))
  · next s st0 heq =>
    simp only at h
    injection h with h
    subst h
    exact (counted_connect_ok W _ st st0 s heq).andThen
      ((counted_collectServerUpMetric hb W (some s) _).andThen
        ((counted_collectJailMetrics hb W s _).andThen
          ((counted_collectVersionMetric hb W s _).andThen
            ((counted_collectBannedIPMetrics W _).andThen
              ((counted_collectErrorCountMetric _).andThen (counted_closeSession W s _))))))

/-- Every `IsHealthy` call is counted. -/
theorem counted_IsHealthy (hb : 0 < bits) (W : Fail2BanSocket σ) (st : State σ bits) :
    Counted st (IsHealthy W st).2 := by
  unfold IsHealthy
  split
  · next e st0 heq => exact counted_connect_error hb W _ st st0 e heq
  · next s st0 heq =>
    refine (counted_connect_ok W _ st st0 s heq).andThen ?_
    split
    · next e2 st2 heq2 => exact counted_query_error hb .ping (by decide) W.Ping st0 st2 e2 heq2
    · next v st2 heq2 => exact counted_query_ok .ping W.Ping st0 st2 v heq2

/-- What `Counted` says in terms of the calls made since `st`. -/
theorem Counted.bounds {st st1 : State σ bits} (h : Counted st st1) :
    (minInt bits ≤ st.c.socketConnectionErrorCount →
      st.c.socketConnectionErrorCount + (failedConnects (newCalls st st1) : Int) ≤ maxInt bits →
      st.c.socketConnectionErrorCount ≤ st1.c.socketConnectionErrorCount) ∧
    (minInt bits ≤ st.c.socketRequestErrorCount →
      st.c.socketRequestErrorCount + (failedRequests (newCalls st st1) : Int) ≤ maxInt bits →
      st.c.socketRequestErrorCount ≤ st1.c.socketRequestErrorCount) := by
  obtain ⟨new, hn, c1, r1⟩ := h
  have hnew : newCalls st st1 = new := by simp [newCalls, hn]
  rw [hnew]
  exact ⟨fun a b => (c1 a b).1, fun a b => (r1 a b).1⟩

/-! ## Claims -/

/-- C3: a `Collect` cycle that returns sends exactly one `up` metric, labelled
with the host; its value is 1 exactly when the initial `ConnectToSocket`
succeeded and `Ping` on that session answered true without error, and 0 in
every other case. -/
theorem Collect_one_serverUp (W : Fail2BanSocket σ) (st st1 : State σ bits)
    (h : Collect W st = .returned st1) :
    ∃ emitted v, st1.ch = st.ch ++ emitted ∧
      emitted.filter (fun m => decide (m.desc = .metricServerUp)) =
        [⟨.metricServerUp, v, [st.c.hostname]⟩] ∧
      (v = 1 ∨ v = 0) ∧
      (v = 1 ↔ ∃ u w1 w2, W.ConnectToSocket st.c.socketPath st.sock = (.ok u, w1) ∧
        W.Ping w1 = (.ok true, w2)) := by
  unfold Collect at h
  have hc := connectToSocket_frame W st.c.socketPath st
  rcases hconn : W.ConnectToSocket st.c.socketPath st.sock with ⟨r, w⟩
  rcases r with e | u
  · -- no session
    have hcs : connectToSocket W st.c.socketPath st =
        (.error e, { st with sock := w, calls := st.calls ++ [⟨.connect, true⟩] }) := by
      simp [connectToSocket, hconn]
    rw [hcs] at h
    simp only at h
    split at h
    · cases h
    · injection h with h
      subst h
      obtain ⟨⟨e2, he2, hp2⟩, -⟩ := grows_afterServerUp_none W
        (collectServerUpMetric W none (incConn
          { st with sock := w, calls := st.calls ++ [⟨.connect, true⟩] }))
      refine ⟨⟨.metricServerUp, 0, [st.c.hostname]⟩ :: e2, 0, ?_, ?_, Or.inr rfl, ?_⟩
      · rw [he2]
        simp [collectServerUpMetric, send, incConn]
      · simp [filter_serverUp_nil e2 hp2]
      · simp
  · -- a session
    have hcs : connectToSocket W st.c.socketPath st =
        (.ok .handle, { st with sock := w, openSessions := st.openSessions + 1,
                                calls := st.calls ++ [⟨.connect, false⟩] }) := by
      simp [connectToSocket, hconn]
    rw [hcs] at h
    simp only at h
    injection h with h
    subst h
    obtain ⟨⟨e2, he2, hp2⟩, -⟩ := grows_afterServerUp W .handle
      (collectServerUpMetric W (some .handle)
        { st with sock := w, openSessions := st.openSessions + 1,
                  calls := st.calls ++ [⟨.connect, false⟩] })
    refine ⟨⟨.metricServerUp, pingValue W w, [st.c.hostname]⟩ :: e2, pingValue W w,
      ?_, ?_, ?_, ?_⟩
    · simp only [closeSession]
      rw [he2, collectServerUpMetric_some]
      simp only [List.append_assoc, List.singleton_append]
    · simp [filter_serverUp_nil e2 hp2]
    · unfold pingValue
      split <;> simp
    · unfold pingValue
      constructor
      · intro hv
        split at hv
        · next w2 hping => exact ⟨u, w, w2, rfl, hping⟩
        · simp at hv
      · rintro ⟨u1, w1, w2, h1, h2⟩
        injection h1 with h1a h1b
        subst h1b
        simp [h2]

/-- C3 at a concrete input: the unreachable socket without the fatal policy. -/
theorem Collect_one_serverUp_witness :
    ∃ st1, Collect deadSocket (initState (newCollector false)) = .returned st1 ∧
    ∃ emitted v, st1.ch = (initState (newCollector false)).ch ++ emitted ∧
      emitted.filter (fun m => decide (m.desc = .metricServerUp)) =
        [⟨.metricServerUp, v, [(initState (newCollector false)).c.hostname]⟩] ∧
      (v = 1 ∨ v = 0) ∧
      (v = 1 ↔ ∃ u w1 w2, deadSocket.ConnectToSocket
          (initState (newCollector false)).c.socketPath (initState (newCollector false)).sock =
            (.ok u, w1) ∧
        deadSocket.Ping w1 = (.ok true, w2)) :=
  ⟨_, rfl, Collect_one_serverUp deadSocket (initState (newCollector false)) _ rfl⟩

/-- C5: `createBannedIPMetric` sends exactly one metric and changes nothing
else; the metric is a `banned_ip` of value 1 whose eight labels are, in order,
jail, address, host, city, latitude, longitude, country, country_code, each geo
position holding the enricher's value when geo-tagging is enabled, a provider is
configured and the key is present, and `""` otherwise. With the enricher result
{city: Paris, latitude: 48.85, longitude: 2.35} country and country_code are `""`. -/
theorem createBannedIPMetric_eight_labels (jail ip : String) (st : State σ bits) :
    createBannedIPMetric jail ip st =
      send ⟨.metricBannedIP, 1,
        [jail, ip, st.c.hostname, expectedGeoLabel st.c ip "city",
         expectedGeoLabel st.c ip "latitude", expectedGeoLabel st.c ip "longitude",
         expectedGeoLabel st.c ip "country", expectedGeoLabel st.c ip "country_code"]⟩ st ∧
    (createBannedIPMetric "sshd" "1.2.3.4" (initState parisCollector)).ch =
      [⟨.metricBannedIP, 1, ["sshd", "1.2.3.4", "h", "Paris", "48.85", "2.35", "", ""]⟩] := by
  refine ⟨?_, by decide⟩
  unfold createBannedIPMetric expectedGeoLabel geoLabel
  rcases hg : st.c.geoEnabled with _ | _
  · simp
  · rcases hp : st.c.geoProvider with _ | p
    · simp
    · rcases ha : p.Annotate ip with _ | r
      · simp [ha]
      · simp [ha]

/-- C6: when `GetJails` answers a list of N jails, `collectJailMetrics` sends
exactly one `jail_count` metric, of value N, whatever the per-jail queries
answer afterwards. -/
theorem collectJailMetrics_jail_count (W : Fail2BanSocket σ) (s : Session) (st : State σ bits)
    (jails : List String) (w : σ) (h : W.GetJails st.sock = (.ok jails, w)) :
    ∃ emitted, (collectJailMetrics W s st).ch = st.ch ++ emitted ∧
      emitted.filter (fun m => decide (m.desc = .metricJailCount)) =
        [⟨.metricJailCount, (jails.length : Int), [st.c.hostname]⟩] := by
  obtain ⟨⟨e, he, hp⟩, -⟩ := grows_collectJailLoop W s jails
    (send ⟨.metricJailCount, (jails.length : Int), [st.c.hostname]⟩
      { st with sock := w, calls := st.calls ++ [⟨.jails, false⟩] })
  refine ⟨⟨.metricJailCount, (jails.length : Int), [st.c.hostname]⟩ :: e, ?_, ?_⟩
  · simp only [collectJailMetrics, query, h]
    rw [he]
    simp [send]
  · have hnil : e.filter (fun m => decide (m.desc = .metricJailCount)) = [] := by
      rw [List.filter_eq_nil_iff]
      intro m hm
      have := hp m hm
      unfold perJailDesc at this
      rcases this with h | h | h | h | h | h | h <;> simp [h]
    simp [hnil]

/-- C6 at a concrete input: two jails whose per-jail queries all fail. -/
theorem collectJailMetrics_jail_count_witness :
    ∃ emitted,
      (collectJailMetrics { deadSocket with GetJails := fun w => (.ok ["sshd", "nginx"], w) }
        .handle (initState (newCollector false))).ch =
        (initState (newCollector false)).ch ++ emitted ∧
      emitted.filter (fun m => decide (m.desc = .metricJailCount)) =
        [⟨.metricJailCount, ((["sshd", "nginx"] : List String).length : Int),
          [(initState (newCollector false)).c.hostname]⟩] :=
  collectJailMetrics_jail_count { deadSocket with GetJails := fun w => (.ok ["sshd", "nginx"], w) }
    .handle (initState (newCollector false)) ["sshd", "nginx"] () rfl

/-- C9 at the top of the type: on a 64-bit build with both counters at the largest
`int`, a failed connect in `IsHealthy` wraps `socketConnectionErrorCount` to the
smallest `int`, and so does the failed connect of a `Collect` that returns; a
failed ping in `IsHealthy` does the same to `socketRequestErrorCount`. The
counters after the call are below their values before it. -/
theorem error_counter_wraps :
    (IsHealthy deadSocket (initState saturatedCollector)).2.c.socketConnectionErrorCount =
      -9223372036854775808 ∧
    ¬ ((initState saturatedCollector).c.socketConnectionErrorCount ≤
      (IsHealthy deadSocket (initState saturatedCollector)).2.c.socketConnectionErrorCount) ∧
    (∃ st1, Collect deadSocket (initState saturatedCollector) = .returned st1 ∧
      ¬ ((initState saturatedCollector).c.socketConnectionErrorCount ≤
        st1.c.socketConnectionErrorCount)) ∧
    ¬ ((initState saturatedCollector).c.socketRequestErrorCount ≤
      (IsHealthy { deadSocket with ConnectToSocket := fun _ w => (.ok (), w) }
        (initState saturatedCollector)).2.c.socketRequestErrorCount) :=
  ⟨by decide, by decide, ⟨_, rfl, by decide⟩, by decide⟩

/-- C9 short of overflow: the last two metrics sent by a `Collect` that returns are the
`errors` samples of types `socket_conn` and `socket_req`, carrying the values
the two counters have at that point. After such a `Collect`, and after an
`IsHealthy` call, a counter that held a Go `int` before the call is at least
its value before, provided that value plus the number of failed calls of its
kind made during the call (failed session acquisitions for
`socketConnectionErrorCount`, failed queries for `socketRequestErrorCount`)
does not exceed the largest `int`. -/
theorem error_counters_never_decrease (hb : 0 < bits) (W : Fail2BanSocket σ)
    (st : State σ bits)
    (hconn : minInt bits ≤ st.c.socketConnectionErrorCount)
    (hreq : minInt bits ≤ st.c.socketRequestErrorCount) :
    (∀ st1, Collect W st = .returned st1 →
      (∃ pre, st1.ch = st.ch ++ pre ++
        [⟨.metricErrorCount, st1.c.socketConnectionErrorCount, ["socket_conn", st.c.hostname]⟩,
          ⟨.metricErrorCount, st1.c.socketRequestErrorCount, ["socket_req", st.c.hostname]⟩]) ∧
      (st.c.socketConnectionErrorCount + (failedConnects (newCalls st st1) : Int) ≤ maxInt bits →
        st.c.socketConnectionErrorCount ≤ st1.c.socketConnectionErrorCount) ∧
      (st.c.socketRequestErrorCount + (failedRequests (newCalls st st1) : Int) ≤ maxInt bits →
        st.c.socketRequestErrorCount ≤ st1.c.socketRequestErrorCount)) ∧
    (st.c.socketConnectionErrorCount +
        (failedConnects (newCalls st (IsHealthy W st).2) : Int) ≤ maxInt bits →
      st.c.socketConnectionErrorCount ≤ (IsHealthy W st).2.c.socketConnectionErrorCount) ∧
    (st.c.socketRequestErrorCount +
        (failedRequests (newCalls st (IsHealthy W st).2) : Int) ≤ maxInt bits →
      st.c.socketRequestErrorCount ≤ (IsHealthy W st).2.c.socketRequestErrorCount) := by
  refine ⟨?_, ?_, ?_⟩
  · intro st1 h
    obtain ⟨h3, ⟨pre, h4⟩, -⟩ := Collect_returned_frame W st st1 h
    rw [h3] at h4
    obtain ⟨b1, b2⟩ := (counted_Collect hb W st st1 h).bounds
    exact ⟨⟨pre, h4⟩, b1 hconn, b2 hreq⟩
  · exact (counted_IsHealthy hb W st).bounds.1 hconn
  · exact (counted_IsHealthy hb W st).bounds.2 hreq

/-- C9 short of overflow, at a concrete input: the unreachable socket without the fatal
policy on a 64-bit build, counters at 0. `Collect` returns after two failed
session acquisitions with the connection counter at 1. -/
theorem error_counters_never_decrease_witness :
    ∃ st1, Collect deadSocket (initState (newCollector false)) = .returned st1 ∧
      failedConnects (newCalls (initState (newCollector false)) st1) = 2 ∧
      st1.c.socketConnectionErrorCount = 1 ∧
      (∃ pre, st1.ch = (initState (newCollector false)).ch ++ pre ++
        [⟨.metricErrorCount, st1.c.socketConnectionErrorCount,
            ["socket_conn", (initState (newCollector false)).c.hostname]⟩,
          ⟨.metricErrorCount, st1.c.socketRequestErrorCount,
            ["socket_req", (initState (newCollector false)).c.hostname]⟩]) ∧
      (initState (newCollector false)).c.socketConnectionErrorCount ≤
        st1.c.socketConnectionErrorCount ∧
      (initState (newCollector false)).c.socketRequestErrorCount ≤
        st1.c.socketRequestErrorCount :=
  ⟨_, rfl, by decide, by decide,
    ((error_counters_never_decrease (by decide) deadSocket (initState (newCollector false))
      (by decide) (by decide)).1 _ rfl).1,
    ((error_counters_never_decrease (by decide) deadSocket (initState (newCollector false))
      (by decide) (by decide)).1 _ rfl).2.1 (by decide),
    ((error_counters_never_decrease (by decide) deadSocket (initState (newCollector false))
      (by decide) (by decide)).1 _ rfl).2.2 (by decide)⟩

/-- C1: the key `jail + ":" + ip` is not unique per (jail, address) pair. With
jails `["web", "web:a"]`, `web` banning `a:1::2` and `web:a` banning `1::2`
twice, both pairs have the key `web:a:1::2`; `collectBannedIPMetrics` sends one
`banned_ip` sample, for (web, a:1::2), and none for (web:a, 1::2), which occurs
twice in the source data. -/
theorem collectBannedIPMetrics_key_collision :
    "web" ++ ":" ++ "a:1::2" = "web:a" ++ ":" ++ "1::2" ∧
    (collidingBanned "web:a").count "1::2" = 2 ∧
    bannedPairs (collectBannedIPMetrics (liveSocket ["web", "web:a"] collidingBanned)
      (initState (newCollector false))).ch = [("web", "a:1::2")] ∧
    (bannedPairs (collectBannedIPMetrics (liveSocket ["web", "web:a"] collidingBanned)
      (initState (newCollector false))).ch).count ("web:a", "1::2") = 0 := by
  decide

/-- The specification's example: jails `["sshd", "nginx"]`, sshd banning 1.2.3.4
twice and nginx banning 5.6.7.8, give exactly the two `banned_ip` samples
(sshd, 1.2.3.4) and (nginx, 5.6.7.8). -/
theorem collectBannedIPMetrics_example :
    (collectBannedIPMetrics (liveSocket ["sshd", "nginx"] exampleBanned)
      (initState (newCollector false))).ch =
      [⟨.metricBannedIP, 1, ["sshd", "1.2.3.4", "h", "", "", "", "", ""]⟩,
       ⟨.metricBannedIP, 1, ["nginx", "5.6.7.8", "h", "", "", "", "", ""]⟩] := by
  decide

/-- C2: failures inside `collectBannedIPMetrics` are not counted. On the
unreachable socket (no fatal policy) a cycle makes two failed session
acquisitions and the connection counter rises by one; on a socket whose
banned-address queries fail a cycle makes two failed queries and the request
counter does not rise. -/
theorem Collect_uncounted_failures :
    (∃ st1, Collect deadSocket (initState (newCollector false)) = .returned st1 ∧
      failedConnects st1.calls = 2 ∧
      st1.c.socketConnectionErrorCount =
        (initState (newCollector false)).c.socketConnectionErrorCount + 1) ∧
    (∃ st1, Collect bannedFailSocket (initState (newCollector false)) = .returned st1 ∧
      failedRequests st1.calls = 2 ∧
      st1.c.socketRequestErrorCount =
        (initState (newCollector false)).c.socketRequestErrorCount) :=
  ⟨⟨_, rfl, by decide, by decide⟩, ⟨_, rfl, by decide, by decide⟩⟩

/-- C8: `IsHealthy` does not close the session it opens. On a healthy socket
with no session open before the call, it answers true and one session is open
after it. -/
theorem IsHealthy_leaves_session_open :
    (initState (newCollector false)).openSessions = 0 ∧
    (IsHealthy (liveSocket [] exampleBanned) (initState (newCollector false))).1 = true ∧
    (IsHealthy (liveSocket [] exampleBanned) (initState (newCollector false))).2.openSessions
      = 1 := by
  decide

/-- `Collect`, when it returns, and `collectBannedIPMetrics` leave as many
sessions open as they found. -/
theorem Collect_closes_sessions (W : Fail2BanSocket σ) (st : State σ bits) :
    (∀ st1, Collect W st = .returned st1 → st1.openSessions = st.openSessions) ∧
    (collectBannedIPMetrics W st).openSessions = st.openSessions :=
  ⟨fun st1 h => (Collect_returned_frame W st st1 h).2.2,
    (grows_collectBannedIPMetrics W st).2.2⟩

/-- C10: `Annotate` returns a non-nil map for a record that resolves the country
only: the map holds `country` and `country_code` and has no `city`, `latitude`
or `longitude` key. -/
theorem Annotate_country_only :
    MaxMindProvider.Annotate demoParseIP (fun x => x == 0) demoSprintf6 countryOnlyProvider
      "1.2.3.4" = some [("country", "France"), ("country_code", "FR")] ∧
    List.lookup "city" [("country", "France"), ("country_code", "FR")] = none ∧
    List.lookup "latitude" [("country", "France"), ("country_code", "FR")] = none ∧
    List.lookup "longitude" [("country", "France"), ("country_code", "FR")] = none := by
  decide

/-! ## What the code does at the divergences -/

theorem bannedPairs_append (a b : List Metric) :
    bannedPairs (a ++ b) = bannedPairs a ++ bannedPairs b := by
  simp [bannedPairs]

theorem createBannedIPMetric_pairs (jail ip : String) (st : State σ bits) :
    bannedPairs (createBannedIPMetric jail ip st).ch = bannedPairs st.ch ++ [(jail, ip)] ∧
    (createBannedIPMetric jail ip st).sock = st.sock := by
  simp [createBannedIPMetric, send, bannedPairs]

theorem bannedIPLoop_spec (jail : String) (ips seen : List String) (st : State σ bits) :
    (bannedIPLoop jail ips (seen, st)).1 = seenAfter (ips.map (fun ip => (jail, ip))) seen ∧
    bannedPairs (bannedIPLoop jail ips (seen, st)).2.ch =
      bannedPairs st.ch ++ firstPerKey (ips.map (fun ip => (jail, ip))) seen ∧
    (bannedIPLoop jail ips (seen, st)).2.sock = st.sock := by
  induction ips generalizing seen st with
  | nil => simp [bannedIPLoop, seenAfter, firstPerKey]
  | cons ip rest ih =>
    unfold bannedIPLoop
    simp only [List.map_cons, seenAfter, firstPerKey, banKey]
    split
    · exact ih seen st
    · obtain ⟨h1, h2, h3⟩ := ih ((jail ++ ":" ++ ip) :: seen) (createBannedIPMetric jail ip st)
      obtain ⟨c1, c2⟩ := createBannedIPMetric_pairs jail ip st
      refine ⟨h1, ?_, h3.trans c2⟩
      rw [h2, c1]
      simp [banKey]

theorem firstPerKey_append (l1 l2 : List (String × String)) (seen : List String) :
    firstPerKey (l1 ++ l2) seen = firstPerKey l1 seen ++ firstPerKey l2 (seenAfter l1 seen) ∧
    seenAfter (l1 ++ l2) seen = seenAfter l2 (seenAfter l1 seen) := by
  induction l1 generalizing seen with
  | nil => simp [firstPerKey, seenAfter]
  | cons p rest ih =>
    simp only [List.cons_append, firstPerKey, seenAfter]
    split
    · exact ih seen
    · simp [(ih _).1, (ih _).2]

theorem bannedJailLoop_spec (W : Fail2BanSocket σ) (s : Session) (jails seen : List String)
    (st : State σ bits) :
    bannedPairs (bannedJailLoop W s jails (seen, st)).2.ch =
      bannedPairs st.ch ++ firstPerKey (rawBanned W jails st.sock) seen := by
  induction jails generalizing seen st with
  | nil => simp [bannedJailLoop, rawBanned, firstPerKey]
  | cons jail rest ih =>
    unfold bannedJailLoop rawBanned query
    rcases hq : W.GetBannedIPs jail st.sock with ⟨r, w⟩
    rcases r with e | ips
    · simp only
      rw [ih]
    · simp only
      obtain ⟨h1, h2, h3⟩ := bannedIPLoop_spec jail ips seen
        { st with sock := w, calls := st.calls ++ [⟨.bannedIPs, false⟩] }
      have : bannedIPLoop jail ips (seen,
          { st with sock := w, calls := st.calls ++ [⟨.bannedIPs, false⟩] }) =
          ((bannedIPLoop jail ips (seen,
            { st with sock := w, calls := st.calls ++ [⟨.bannedIPs, false⟩] })).1,
           (bannedIPLoop jail ips (seen,
            { st with sock := w, calls := st.calls ++ [⟨.bannedIPs, false⟩] })).2) := rfl
      rw [this, ih, h2, h3, h1, (firstPerKey_append _ _ _).1]
      simp

theorem count_firstPerKey (l : List (String × String)) (seen : List String)
    (hinj : ∀ p ∈ l, ∀ q ∈ l, banKey p = banKey q → p = q) (p : String × String) :
    (firstPerKey l seen).count p = if p ∈ l ∧ banKey p ∉ seen then 1 else 0 := by
  induction l generalizing seen with
  | nil => simp [firstPerKey]
  | cons q rest ih =>
    have hinj2 : ∀ a ∈ rest, ∀ b ∈ rest, banKey a = banKey b → a = b :=
      fun a ha b hb => hinj a (List.mem_cons_of_mem _ ha) b (List.mem_cons_of_mem _ hb)
    unfold firstPerKey
    by_cases hq : banKey q ∈ seen
    · have hc : seen.contains (banKey q) = true := by simpa using hq
      simp only [hc, if_true]
      rw [ih seen hinj2]
      by_cases hpq : p = q
      · subst hpq
        simp [hq]
      · simp [hpq]
    · have hc : seen.contains (banKey q) = false := by simpa using hq
      simp only [hc, Bool.false_eq_true, if_false]
      rw [List.count_cons, ih _ hinj2]
      by_cases hpq : p = q
      · subst hpq
        simp [hq]
      · have hqp : ¬ (q = p) := fun h => hpq h.symm
        by_cases hpr : p ∈ rest
        · have hk : banKey p ≠ banKey q := fun hk =>
            hpq (hinj p (List.mem_cons_of_mem _ hpr) q (List.mem_cons_self _ _) hk)
          simp [hpq, hqp, hpr, hk]
        · simp [hpq, hqp, hpr]

theorem split_at_separator (c : Char) (l1 l2 r1 r2 : List Char) (h1 : c ∉ l1) (h2 : c ∉ l2)
    (h : l1 ++ c :: r1 = l2 ++ c :: r2) : l1 = l2 ∧ r1 = r2 := by
  induction l1 generalizing l2 with
  | nil =>
    cases l2 with
    | nil => simpa using h
    | cons b l2 =>
      simp only [List.nil_append, List.cons_append, List.cons.injEq] at h
      exact absurd (h.1 ▸ List.mem_cons_self _ _) h2
  | cons a l1 ih =>
    cases l2 with
    | nil =>
      simp only [List.nil_append, List.cons_append, List.cons.injEq] at h
      exact absurd (h.1 ▸ List.mem_cons_self _ _) h1
    | cons b l2 =>
      simp only [List.cons_append, List.cons.injEq] at h
      obtain ⟨i1, i2⟩ := ih l2 (fun hm => h1 (List.mem_cons_of_mem _ hm))
        (fun hm => h2 (List.mem_cons_of_mem _ hm)) h.2
      exact ⟨by rw [h.1, i1], i2⟩

/-- Keys of pairs whose jail names hold no `:` determine the pair. -/
theorem banKey_injective (p q : String × String) (hp : ':' ∉ p.1.data) (hq : ':' ∉ q.1.data)
    (h : banKey p = banKey q) : p = q := by
  have hd : p.1.data ++ ':' :: p.2.data = q.1.data ++ ':' :: q.2.data := by
    have := congrArg String.data h
    simpa [banKey, String.data_append] using this
  obtain ⟨h1, h2⟩ := split_at_separator ':' _ _ _ _ hp hq hd
  exact Prod.ext (String.ext h1) (String.ext h2)

theorem rawBanned_jail (W : Fail2BanSocket σ) (jails : List String) (w : σ) :
    ∀ p ∈ rawBanned W jails w, p.1 ∈ jails := by
  induction jails generalizing w with
  | nil => simp [rawBanned]
  | cons jail rest ih =>
    intro p hp
    unfold rawBanned at hp
    split at hp
    · exact List.mem_cons_of_mem _ (ih _ p hp)
    · rcases List.mem_append.mp hp with h | h
      · obtain ⟨ip, -, rfl⟩ := List.mem_map.mp h
        exact List.mem_cons_self _ _
      · exact List.mem_cons_of_mem _ (ih _ p h)

/-- Away from key collisions the dedup of `collectBannedIPMetrics` is exact:
when the session and the jail list are obtained and no jail name holds a `:`,
every (jail, address) pair of the cycle's raw banned-address data, however
often it occurs there, has exactly one `banned_ip` sample. -/
theorem collectBannedIPMetrics_one_sample_per_pair (W : Fail2BanSocket σ) (st : State σ bits)
    (u : Unit) (w1 w2 : σ) (jails : List String)
    (hconn : W.ConnectToSocket st.c.socketPath st.sock = (.ok u, w1))
    (hjails : W.GetJails w1 = (.ok jails, w2))
    (hcolon : ∀ jail ∈ jails, ':' ∉ jail.data) :
    ∃ emitted, (collectBannedIPMetrics W st).ch = st.ch ++ emitted ∧
      ∀ p ∈ rawBanned W jails w2, (bannedPairs emitted).count p = 1 := by
  obtain ⟨⟨e, he, -⟩, -⟩ := grows_collectBannedIPMetrics W st
  refine ⟨e, he, ?_⟩
  have hspec : bannedPairs (collectBannedIPMetrics W st).ch =
      bannedPairs st.ch ++ firstPerKey (rawBanned W jails w2) [] := by
    simp only [collectBannedIPMetrics, connectToSocket, hconn, query, hjails, closeSession]
    rw [bannedJailLoop_spec]
  rw [he, bannedPairs_append] at hspec
  have hpairs := List.append_cancel_left hspec
  intro p hp
  rw [hpairs, count_firstPerKey _ _ _ p]
  · simp [hp]
  · intro a ha b hb hk
    exact banKey_injective a b (hcolon _ (rawBanned_jail W jails w2 a ha))
      (hcolon _ (rawBanned_jail W jails w2 b hb)) hk

/-- The exact-dedup theorem at the specification's example. -/
theorem collectBannedIPMetrics_one_sample_per_pair_witness :
    ∃ emitted,
      (collectBannedIPMetrics (liveSocket ["sshd", "nginx"] exampleBanned)
        (initState (newCollector false))).ch = (initState (newCollector false)).ch ++ emitted ∧
      ∀ p ∈ rawBanned (liveSocket ["sshd", "nginx"] exampleBanned) ["sshd", "nginx"] (),
        (bannedPairs emitted).count p = 1 :=
  collectBannedIPMetrics_one_sample_per_pair (liveSocket ["sshd", "nginx"] exampleBanned)
    (initState (newCollector false)) () () () ["sshd", "nginx"] rfl rfl (by decide)

theorem bannedIPLoop_keeps_collector (jail : String) (ips seen : List String) (st : State σ bits) :
    (bannedIPLoop jail ips (seen, st)).2.c = st.c := by
  induction ips generalizing seen st with
  | nil => rfl
  | cons ip rest ih =>
    unfold bannedIPLoop
    simp only
    split
    · exact ih seen st
    · rw [ih]
      simp [createBannedIPMetric, send]

theorem bannedJailLoop_keeps_collector (W : Fail2BanSocket σ) (s : Session)
    (jails seen : List String) (st : State σ bits) :
    (bannedJailLoop W s jails (seen, st)).2.c = st.c := by
  induction jails generalizing seen st with
  | nil => rfl
  | cons jail rest ih =>
    unfold bannedJailLoop query
    rcases hq : W.GetBannedIPs jail st.sock with ⟨r, w⟩
    rcases r with e | ips
    · simp only
      rw [ih]
    · simp only
      have : bannedIPLoop jail ips (seen,
          { st with sock := w, calls := st.calls ++ [⟨.bannedIPs, false⟩] }) =
          ((bannedIPLoop jail ips (seen,
            { st with sock := w, calls := st.calls ++ [⟨.bannedIPs, false⟩] })).1,
           (bannedIPLoop jail ips (seen,
            { st with sock := w, calls := st.calls ++ [⟨.bannedIPs, false⟩] })).2) := rfl
      rw [this, ih, bannedIPLoop_keeps_collector]

/-- Whatever the socket answers, `collectBannedIPMetrics` returns with the
collector, both error counters included, exactly as it found it. -/
theorem collectBannedIPMetrics_keeps_collector (W : Fail2BanSocket σ) (st : State σ bits) :
    (collectBannedIPMetrics W st).c = st.c := by
  unfold collectBannedIPMetrics connectToSocket query
  rcases hconn : W.ConnectToSocket st.c.socketPath st.sock with ⟨r, w⟩
  rcases r with e | u
  · rfl
  · simp only
    rcases hj : W.GetJails w with ⟨r2, w2⟩
    rcases r2 with e2 | jails
    · rfl
    · simp only [closeSession]
      rw [bannedJailLoop_keeps_collector]

/-- Sessions open after `IsHealthy`: one more than before whenever its connect
succeeded, on either return that follows. -/
theorem IsHealthy_openSessions (W : Fail2BanSocket σ) (st : State σ bits) :
    (IsHealthy W st).2.openSessions =
      st.openSessions +
        (match W.ConnectToSocket st.c.socketPath st.sock with
         | (.ok _, _) => 1
         | (.error _, _) => 0) := by
  unfold IsHealthy connectToSocket query
  rcases hconn : W.ConnectToSocket st.c.socketPath st.sock with ⟨r, w⟩
  rcases r with e | u
  · simp [incConn]
  · rcases hp : W.Ping w with ⟨r2, w2⟩
    rcases r2 with e2 | b <;> simp [incReq, hp]

end F2B
